import Mathlib

/-!
Shallow embedding of the shop-wallet / withdrawal / order-status / payment-callback
subsystem of the swahili_api repository.

Monetary amounts and stock counts are modelled as `Int` (JavaScript numbers used
only with `+`, `-` and comparisons).  Mongo documents become Lean structures,
collections become lists, and each Express controller becomes a pure function
from a database state and request data to a response plus the new database state.
Timestamps (`new Date()`, `Date.now()`) are threaded as an explicit `now : Nat`.
-/

namespace SwahiliApi

/-- JavaScript string case mapping (`.toUpperCase()`), mapped over the characters. -/
def toUpperCase (s : String) : String := ⟨s.data.map Char.toUpper⟩

/-- JavaScript string case mapping (`.toLowerCase()`), mapped over the characters. -/
def toLowerCase (s : String) : String := ⟨s.data.map Char.toLower⟩

/-- JavaScript `a || b` on optional strings: `undefined` and the empty string are falsy. -/
def jsOrString : Option String → Option String → Option String
  | some s, b => if s = "" then b else some s
  | none, b => b

/-- Shop wallet subdocument (authController.js ShopSchema.wallet: `currentBalance`,
`lockedBalance`, both defaulting to 0; the fixed `currency` carries no logic). -/
structure Wallet where
  currentBalance : Int
  lockedBalance : Int
  deriving Repr, DecidableEq

/-- The free-form `details` subdocument of a withdrawal's `paymentDetails`
(WithdrawalRequest schema): every field is an optional plain string. -/
structure PayoutDetails where
  accountName : Option String
  accountNumber : Option String
  bankName : Option String
  phoneNumber : Option String
  provider : Option String
  deriving Repr, DecidableEq

/-- The `paymentDetails` value sent with a withdrawal request: a `type` tag and a
`details` object, either of which may be absent in the request body. -/
structure PaymentDetails where
  type : Option String
  details : Option PayoutDetails
  deriving Repr, DecidableEq

/-- A WithdrawalRequest document (models/WithdrawalRequest). -/
structure WithdrawalDoc where
  id : Nat
  shop : Nat
  user : Nat
  amount : Int
  paymentDetails : PaymentDetails
  status : String
  adminNote : Option String
  processedBy : Option Nat
  processedAt : Option Nat
  deriving Repr, DecidableEq

/-- A Shop document, restricted to the fields the embedded controllers read:
owner, the optional wallet subdocument (absent on legacy documents), and the
`metrics.totalRevenue` counter updated by the delivered-order credit. -/
structure Shop where
  id : Nat
  owner : Nat
  wallet : Option Wallet
  metricsTotalRevenue : Int
  deriving Repr, DecidableEq

/-- A Product document, restricted to its stock counter (read by the restock
branch of `updateOrderStatus`). -/
structure Product where
  id : Nat
  stock : Int
  deriving Repr, DecidableEq

/-- An Order document, restricted to the fields read by `updateOrderStatus` and
the ZenoPay webhook handlers.  `pd*` fields are the `paymentDetails` subdocument. -/
structure Order where
  id : Nat
  shop : Nat
  shopOwner : Nat
  user : Nat
  status : String
  paymentStatus : String
  amountsSubtotal : Int
  amountsTotal : Int
  items : List (Nat × Int)
  statusHistory : List (String × Nat)
  pdTransactionId : Option String
  pdStatus : String
  pdReference : Option String
  pdCompletedAt : Option Nat
  pdLastCallbackAt : Option Nat
  pdCallbackStatus : Option String
  deriving Repr, DecidableEq

/-- The persistent state touched by the embedded controllers. -/
structure DB where
  shops : List Shop
  withdrawals : List WithdrawalDoc
  orders : List Order
  products : List Product
  deriving Repr, DecidableEq

/-- The authenticated caller supplied by the auth middleware (`req.user`). -/
structure AuthUser where
  id : Nat
  userType : String
  deriving Repr, DecidableEq

/-- JSON API response shape used by the order and withdrawal controllers:
HTTP status code, `success` flag and `errors` list. -/
structure ApiResp where
  status : Nat
  success : Bool
  errors : List String
  deriving Repr, DecidableEq

/-- Response shape of the webhook handlers: HTTP status code and message. -/
structure WebhookResp where
  httpStatus : Nat
  message : String
  deriving Repr, DecidableEq

/-- `Shop.findOne({ owner: userId })`. -/
def findShopByOwner (shops : List Shop) (userId : Nat) : Option Shop :=
  shops.find? (fun s => s.owner = userId)

/-- `Shop.findById(shopId)`. -/
def findShopById (shops : List Shop) (shopId : Nat) : Option Shop :=
  shops.find? (fun s => s.id = shopId)

/-- `WithdrawalRequest.findById(id)`. -/
def findWithdrawalById (ws : List WithdrawalDoc) (id : Nat) : Option WithdrawalDoc :=
  ws.find? (fun w => w.id = id)

/-- `Order.findById(orderId)`. -/
def findOrderById (os : List Order) (orderId : Nat) : Option Order :=
  os.find? (fun o => o.id = orderId)

/-- `Order.findOne({ 'paymentDetails.transactionId': order_id })`. -/
def findOrderByTransactionId (os : List Order) (tid : String) : Option Order :=
  os.find? (fun o => o.pdTransactionId = some tid)

/-- `document.save()` on a loaded document: replace the first stored document
carrying the same id. -/
def saveShop : List Shop → Shop → List Shop
  | [], _ => []
  | s :: rest, s' => if s.id = s'.id then s' :: rest else s :: saveShop rest s'

/-- `withdrawal.save()`: replace the first stored document with the same id. -/
def saveWithdrawal : List WithdrawalDoc → WithdrawalDoc → List WithdrawalDoc
  | [], _ => []
  | w :: rest, w' => if w.id = w'.id then w' :: rest else w :: saveWithdrawal rest w'

/-- `order.save()` / `Order.findByIdAndUpdate`: replace the first stored document
with the same id. -/
def saveOrder : List Order → Order → List Order
  | [], _ => []
  | o :: rest, o' => if o.id = o'.id then o' :: rest else o :: saveOrder rest o'

/-- Restock branch of order cancellation: for every order line,
`Product.findByIdAndUpdate(item.product, { $inc: { stock: item.quantity } })`. -/
def restock (products : List Product) (items : List (Nat × Int)) : List Product :=
  items.foldl
    (fun ps item =>
      ps.map (fun p => if p.id = item.1 then { p with stock := p.stock + item.2 } else p))
    products

/-- ORDER_STATUS_FLOW transition table (orderController lines 10-17); an unknown
current status maps to `[]` (the JS `|| []` fallback). -/
def ORDER_STATUS_FLOW (currentStatus : String) : List String :=
  if currentStatus = "pending_payment" then ["pending", "cancelled"]
  else if currentStatus = "pending" then ["processing", "cancelled"]
  else if currentStatus = "processing" then ["shipped", "cancelled"]
  else if currentStatus = "shipped" then ["delivered", "cancelled"]
  else []

/-- `isValidStatusTransition` (orderController lines 19-22). -/
def isValidStatusTransition (currentStatus newStatus : String) : Bool :=
  (ORDER_STATUS_FLOW currentStatus).contains newStatus

/-- Wallet credit applied when an order first reaches `delivered`
(orderController lines 412-423): default a missing wallet to zero, add the
revenue to `currentBalance` and to `metrics.totalRevenue`. -/
def creditShopWallet (shop : Shop) (orderRevenue : Int) : Shop :=
  let wallet := shop.wallet.getD ⟨0, 0⟩
  { shop with
      wallet := some { wallet with currentBalance := wallet.currentBalance + orderRevenue },
      metricsTotalRevenue := shop.metricsTotalRevenue + orderRevenue }

/-- Target statuses accepted by `updateOrderStatus` (orderController line 336). -/
def validStatuses : List String := ["pending", "processing", "shipped", "delivered", "cancelled"]

/-- `updateOrderStatus` (orderController lines 330-476): validate the target
status, load the order, authorize (shop owner or admin), validate the
transition, run the cancelled/delivered side effects, then persist the order
with its appended status history.  Notifications are external side effects and
are not part of the state. -/
def updateOrderStatus (db : DB) (user : AuthUser) (orderId : Nat) (status : String) :
    ApiResp × DB :=
  if ¬ validStatuses.contains status then
    (⟨400, false, ["Invalid status value"]⟩, db)
  else
    match findOrderById db.orders orderId with
    | none => (⟨404, false, ["Order not found"]⟩, db)
    | some order =>
      let isShopOwner := order.shopOwner = user.id
      let isAdmin := user.userType = "ADMIN"
      if ¬ (isShopOwner ∨ isAdmin) then
        (⟨403, false, ["Not authorized to update this order"]⟩, db)
      else if ¬ isValidStatusTransition order.status status then
        (⟨400, false, ["Cannot change status from " ++ order.status ++ " to " ++ status]⟩, db)
      else
        let db1 : DB :=
          if status = "cancelled" then
            { db with products := restock db.products order.items }
          else if status = "delivered" ∧ order.status ≠ "delivered" then
            match findShopById db.shops order.shop with
            | some shop =>
              let orderRevenue :=
                if order.amountsSubtotal = 0 then order.amountsTotal else order.amountsSubtotal
              { db with shops := saveShop db.shops (creditShopWallet shop orderRevenue) }
            | none => db
          else db
        let updatedOrder :=
          { order with
              status := status,
              statusHistory := order.statusHistory ++ [(order.status, user.id)] }
        (⟨200, true, []⟩, { db1 with orders := saveOrder db1.orders updatedOrder })

/-- `requestWithdrawal` (withdrawalController lines 833-907): validate amount and
payment details, load the caller's shop, default a missing wallet to zero,
check the balance, then move `amount` from `currentBalance` to `lockedBalance`
and append a `pending` WithdrawalRequest row with the fresh id `newId`. -/
def requestWithdrawal (db : DB) (userId : Nat) (amount : Int)
    (paymentDetails : Option PaymentDetails) (newId : Nat) : ApiResp × DB :=
  if amount ≤ 0 then
    (⟨400, false, ["Invalid amount"]⟩, db)
  else
    match paymentDetails with
    | none => (⟨400, false, ["Invalid payment details"]⟩, db)
    | some pd =>
      if pd.type = none ∨ pd.details = none then
        (⟨400, false, ["Invalid payment details"]⟩, db)
      else
        match findShopByOwner db.shops userId with
        | none => (⟨404, false, ["Shop not found for this user"]⟩, db)
        | some shop =>
          let wallet := shop.wallet.getD ⟨0, 0⟩
          if wallet.currentBalance < amount then
            (⟨400, false, ["Insufficient funds"]⟩, db)
          else
            let shop' :=
              { shop with
                  wallet := some ⟨wallet.currentBalance - amount, wallet.lockedBalance + amount⟩ }
            let wd : WithdrawalDoc :=
              ⟨newId, shop.id, userId, amount, pd, "pending", none, none, none⟩
            (⟨201, true, []⟩,
              { db with
                  shops := saveShop db.shops shop',
                  withdrawals := db.withdrawals ++ [wd] })

/-- `updateWithdrawalStatus` (withdrawalController lines 959-1021): validate the
decision, load the request, refuse a non-pending request, load the shop, then
either burn (`approved`: `lockedBalance -= amount`) or refund (`rejected`:
`lockedBalance -= amount; currentBalance += amount`), stamping the resolution
fields.  The controller performs no admin check. -/
def updateWithdrawalStatus (db : DB) (adminId : Nat) (id : Nat) (status : String)
    (adminNote : Option String) (now : Nat) : ApiResp × DB :=
  if ¬ (status = "approved" ∨ status = "rejected") then
    (⟨400, false, ["Invalid status"]⟩, db)
  else
    match findWithdrawalById db.withdrawals id with
    | none => (⟨404, false, ["Withdrawal request not found"]⟩, db)
    | some withdrawal =>
      if withdrawal.status ≠ "pending" then
        (⟨400, false, ["Request is already processed"]⟩, db)
      else
        match findShopById db.shops withdrawal.shop with
        | none => (⟨404, false, ["Associated shop not found"]⟩, db)
        | some shop =>
          let wallet := shop.wallet.getD ⟨0, 0⟩
          if status = "approved" then
            let shop' :=
              { shop with
                  wallet := some ⟨wallet.currentBalance, wallet.lockedBalance - withdrawal.amount⟩ }
            let withdrawal' :=
              { withdrawal with
                  status := "approved", processedBy := some adminId,
                  processedAt := some now, adminNote := adminNote }
            (⟨200, true, []⟩,
              { db with
                  shops := saveShop db.shops shop',
                  withdrawals := saveWithdrawal db.withdrawals withdrawal' })
          else
            let shop' :=
              { shop with
                  wallet := some ⟨wallet.currentBalance + withdrawal.amount,
                                  wallet.lockedBalance - withdrawal.amount⟩ }
            let withdrawal' :=
              { withdrawal with
                  status := "rejected", processedBy := some adminId,
                  processedAt := some now, adminNote := adminNote }
            (⟨200, true, []⟩,
              { db with
                  shops := saveShop db.shops shop',
                  withdrawals := saveWithdrawal db.withdrawals withdrawal' })

/-- The `PATCH /:id/status` route (routes/withdrawals.js line 13): the `auth`
middleware only authenticates, then the controller runs with `req.user._id`;
the caller's `userType` is never consulted. -/
def patchWithdrawalStatus (db : DB) (user : AuthUser) (id : Nat) (status : String)
    (adminNote : Option String) (now : Nat) : ApiResp × DB :=
  updateWithdrawalStatus db user.id id status adminNote now

/-- The `x-api-key` gate of the verifying webhook handler: reject only when a
key is present and differs from the configured key. -/
def apiKeyMismatch : Option String → String → Bool
  | some k, envKey => k ≠ envKey
  | none, _ => false

/-- `handleZenopayCallback`, verifying variant (webhookController lines 10-150):
check the api key, look up the order by transaction id (not found is an accepted
no-op), re-verify the status with the payment API (`verifiedStatus` is that
answer), skip an already-completed order, otherwise mark payment completed and
move the order to `pending`. -/
def handleZenopayCallback (db : DB) (apiKey : Option String) (envApiKey : String)
    (order_id : Option String) (reference : Option String)
    (verifiedStatus : Option String) (now : Nat) : WebhookResp × DB :=
  if apiKeyMismatch apiKey envApiKey then
    (⟨401, "Unauthorized"⟩, db)
  else
    match order_id with
    | none => (⟨400, "Missing order_id"⟩, db)
    | some oid =>
      match findOrderByTransactionId db.orders oid with
      | none => (⟨200, "Order not found"⟩, db)
      | some order =>
        if verifiedStatus ≠ some "COMPLETED" then
          (⟨200, "Payment not completed"⟩, db)
        else if order.paymentStatus = "completed" then
          (⟨200, "Already processed"⟩, db)
        else
          let order' :=
            { order with
                paymentStatus := "completed", status := "pending",
                pdStatus := "completed", pdReference := reference,
                pdCompletedAt := some now }
          (⟨200, "received"⟩, { db with orders := saveOrder db.orders order' })

/-- The order update performed by the status-mapping webhook handler
(webhookController lines 270-333): map the reported status
(`payment_status || status`, upper-cased) through the switch, then set the
payment status, order status and callback metadata. -/
def zenopayMappedOrder (order : Order) (statusField payment_status reference : Option String)
    (now : Nat) : Order :=
  let paymentStatusValue := jsOrString payment_status statusField
  let upper := paymentStatusValue.map toUpperCase
  let mapped : String × String :=
    if upper = some "COMPLETED" ∨ upper = some "SUCCESS" ∨ upper = some "SUCCESSFUL" then
      ("completed", "pending")
    else if upper = some "FAILED" ∨ upper = some "FAILURE" then
      ("failed", "cancelled")
    else if upper = some "PENDING" ∨ upper = some "PROCESSING" then
      ("pending", "pending_payment")
    else
      let lowered := (paymentStatusValue.map toLowerCase).getD ""
      (if lowered = "" then "unknown" else lowered, order.status)
  { order with
      paymentStatus := mapped.1,
      status := mapped.2,
      pdStatus := mapped.1,
      pdReference := jsOrString reference order.pdReference,
      pdCompletedAt := if mapped.1 = "completed" then some now else order.pdCompletedAt,
      pdLastCallbackAt := some now,
      pdCallbackStatus := paymentStatusValue }

/-- `handleZenopayCallback`, status-mapping variant (webhookController lines
237-425): look up the order by transaction id, apply `zenopayMappedOrder` to
it and persist the result. -/
def handleZenopayCallbackV2 (db : DB) (order_id : Option String)
    (statusField : Option String) (payment_status : Option String)
    (reference : Option String) (now : Nat) : WebhookResp × DB :=
  match order_id with
  | none => (⟨400, "Missing order_id"⟩, db)
  | some oid =>
    match findOrderByTransactionId db.orders oid with
    | none => (⟨200, "Order not found"⟩, db)
    | some order =>
      (⟨200, "Callback processed successfully"⟩,
        { db with
            orders := saveOrder db.orders
              (zenopayMappedOrder order statusField payment_status reference now) })

/-- One step of the wallet-operation sequence model: the delivered-order credit,
a withdrawal request (reserve), and an admin decision (approve = burn,
reject = release), each running the corresponding embedded code path. -/
inductive WalletOp where
  | credit (shopId : Nat) (orderRevenue : Int)
  | reserve (newId : Nat) (amount : Int)
  | approve (reqId : Nat)
  | reject (reqId : Nat)
  deriving Repr, DecidableEq

/-- A well-formed payment-details value used when driving withdrawal requests in
the sequence model (its content never affects balances). -/
def goodPaymentDetails : PaymentDetails :=
  ⟨some "mobile_money", some ⟨some "acct", none, none, some "0712345678", some "Tigo"⟩⟩

/-- Apply one wallet operation through the embedded controllers. -/
def applyWalletOp (userId adminId : Nat) (db : DB) (op : WalletOp) : DB :=
  match op with
  | .credit shopId orderRevenue =>
    match findShopById db.shops shopId with
    | some shop => { db with shops := saveShop db.shops (creditShopWallet shop orderRevenue) }
    | none => db
  | .reserve newId amount =>
    (requestWithdrawal db userId amount (some goodPaymentDetails) newId).2
  | .approve reqId => (updateWithdrawalStatus db adminId reqId "approved" none 0).2
  | .reject reqId => (updateWithdrawalStatus db adminId reqId "rejected" none 0).2

/-- Run a sequence of wallet operations. -/
def runWalletOps (userId adminId : Nat) (db : DB) (ops : List WalletOp) : DB :=
  ops.foldl (applyWalletOp userId adminId) db

/-- The wallet of a shop as the controllers read it: a missing wallet defaults
to zero balances. -/
def walletOf (s : Shop) : Wallet := s.wallet.getD ⟨0, 0⟩

/-- Sum of the amounts of the pending withdrawal requests of one shop. -/
def pendingSum (ws : List WithdrawalDoc) (shopId : Nat) : Int :=
  ((ws.filter (fun w => w.status = "pending" ∧ w.shop = shopId)).map (fun w => w.amount)).sum

/-- Invariant carried through wallet-operation sequences: shop ids are distinct,
available balances are non-negative, each locked balance equals the sum of that
shop's pending withdrawal amounts, and pending amounts are positive. -/
def WalletInv (db : DB) : Prop :=
  (db.shops.map Shop.id).Nodup ∧
  (∀ s ∈ db.shops, 0 ≤ (walletOf s).currentBalance) ∧
  (∀ s ∈ db.shops, (walletOf s).lockedBalance = pendingSum db.withdrawals s.id) ∧
  (∀ w ∈ db.withdrawals, w.status = "pending" → 0 < w.amount)

/-- A freshly created shop: zeroed wallet, no revenue. -/
def initialShop (owner : Nat) : Shop := ⟨1, owner, some ⟨0, 0⟩, 0⟩

/-- Database holding one freshly created shop and nothing else. -/
def initialDB (owner : Nat) : DB := ⟨[initialShop owner], [], [], []⟩

/-- Shop used in the admin-check scenario: balance 40000 available, 10000 locked. -/
def shopC1 : Shop := ⟨1, 10, some ⟨40000, 10000⟩, 0⟩

/-- A pending withdrawal request of 10000 against `shopC1`. -/
def pendingWdC1 : WithdrawalDoc := ⟨7, 1, 10, 10000, goodPaymentDetails, "pending", none, none, none⟩

/-- Database for the admin-check scenario. -/
def dbC1 : DB := ⟨[shopC1], [pendingWdC1], [], []⟩

/-- An approved withdrawal request used to exercise the already-processed path. -/
def approvedWdC3 : WithdrawalDoc := ⟨7, 1, 10, 10000, goodPaymentDetails, "approved", none, some 99, some 5⟩

/-- Database for the already-processed scenario. -/
def dbC3 : DB := ⟨[shopC1], [approvedWdC3], [], []⟩

/-- Shop with 100 available used in the destination-validation scenario. -/
def dbC9 : DB := ⟨[⟨1, 10, some ⟨100, 0⟩, 0⟩], [], [], []⟩

/-- A bank payout destination missing all of the bank variant's fields
(accountName, accountNumber, bankName are all absent). -/
def badBankPd : PaymentDetails := ⟨some "bank", some ⟨none, none, none, none, none⟩⟩

/-- An order still in fulfillment status `pending`, used to exercise the
rejected pending-to-shipped transition. -/
def orderC5 : Order :=
  ⟨3, 1, 10, 20, "pending", "completed", 500, 500, [], [], none, "completed",
   none, none, none, none⟩

/-- Database for the invalid-transition scenario. -/
def dbC5 : DB := ⟨[⟨1, 10, some ⟨0, 0⟩, 0⟩], [], [orderC5], []⟩

/-- Order already paid, used for the duplicate-callback scenario. -/
def orderC7 : Order :=
  ⟨3, 1, 10, 20, "pending", "completed", 500, 500, [], [], some "tx1", "completed",
   none, some 4, none, none⟩

/-- Database for the duplicate-callback scenario. -/
def dbC7 : DB := ⟨[], [], [orderC7], []⟩

/-- Unpaid order awaiting payment, used for the status-mapping scenarios. -/
def orderC8 : Order :=
  ⟨3, 1, 10, 20, "pending_payment", "pending", 500, 500, [], [], some "tx1", "pending",
   none, none, none, none⟩

/-- Database for the status-mapping scenarios. -/
def dbC8 : DB := ⟨[], [], [orderC8], []⟩

/-- The status values recognized by the mapping webhook handler's switch. -/
def recognizedStatuses : List String :=
  ["COMPLETED", "SUCCESS", "SUCCESSFUL", "FAILED", "FAILURE", "PENDING", "PROCESSING"]

/-- Shop with 5 available and nothing locked, for the reserve-then-burn trace. -/
def dbC6 : DB := ⟨[⟨1, 10, some ⟨5, 0⟩, 0⟩], [], [], []⟩

theorem saveShop_map_id (l : List Shop) (s' : Shop) :
    (saveShop l s').map Shop.id = l.map Shop.id := by
  induction l with
  | nil => rfl
  | cons a rest ih =>
    by_cases h : a.id = s'.id
    · simp [saveShop, h]
    · simp [saveShop, h, ih]

theorem mem_saveShop {l : List Shop} {s' t : Shop} (h : t ∈ saveShop l s') :
    t = s' ∨ t ∈ l := by
  induction l with
  | nil => simp [saveShop] at h
  | cons a rest ih =>
    by_cases hid : a.id = s'.id
    · simp only [saveShop, if_pos hid, List.mem_cons] at h
      rcases h with h | h
      · exact Or.inl h
      · exact Or.inr (List.mem_cons_of_mem _ h)
    · simp only [saveShop, if_neg hid, List.mem_cons] at h
      rcases h with h | h
      · exact Or.inr (by simp [h])
      · rcases ih h with h2 | h2
        · exact Or.inl h2
        · exact Or.inr (List.mem_cons_of_mem _ h2)

theorem mem_saveShop_of_nodup {l : List Shop} {shop s' t : Shop}
    (hnd : (l.map Shop.id).Nodup) (hmem : shop ∈ l) (h : t ∈ saveShop l s')
    (hid : s'.id = shop.id) : t = s' ∨ (t ∈ l ∧ t.id ≠ shop.id) := by
  induction l with
  | nil => simp at hmem
  | cons a rest ih =>
    simp only [List.map_cons, List.nodup_cons] at hnd
    by_cases ha : a.id = s'.id
    · simp only [saveShop, if_pos ha, List.mem_cons] at h
      rcases h with h | h
      · exact Or.inl h
      · refine Or.inr ⟨List.mem_cons_of_mem _ h, fun hc => ?_⟩
        exact hnd.1 (by
          have : t.id ∈ rest.map Shop.id := List.mem_map_of_mem _ h
          rw [hc, ← hid, ← ha] at this
          exact this)
    · rcases List.mem_cons.mp hmem with rfl | hmem2
      · exact absurd (hid.symm) ha
      · simp only [saveShop, if_neg ha, List.mem_cons] at h
        rcases h with h | h
        · refine Or.inr ⟨by simp [h], ?_⟩
          rw [h, ← hid]
          exact ha
        · rcases ih hnd.2 hmem2 h with h2 | h2
          · exact Or.inl h2
          · exact Or.inr ⟨List.mem_cons_of_mem _ h2.1, h2.2⟩

theorem mem_saveWithdrawal {ws : List WithdrawalDoc} {w' t : WithdrawalDoc}
    (h : t ∈ saveWithdrawal ws w') : t = w' ∨ t ∈ ws := by
  induction ws with
  | nil => simp [saveWithdrawal] at h
  | cons a rest ih =>
    by_cases hid : a.id = w'.id
    · simp only [saveWithdrawal, if_pos hid, List.mem_cons] at h
      rcases h with h | h
      · exact Or.inl h
      · exact Or.inr (List.mem_cons_of_mem _ h)
    · simp only [saveWithdrawal, if_neg hid, List.mem_cons] at h
      rcases h with h | h
      · exact Or.inr (by simp [h])
      · rcases ih h with h2 | h2
        · exact Or.inl h2
        · exact Or.inr (List.mem_cons_of_mem _ h2)

theorem pendingSum_nil (sid : Nat) : pendingSum [] sid = 0 := rfl

theorem pendingSum_cons (w : WithdrawalDoc) (ws : List WithdrawalDoc) (sid : Nat) :
    pendingSum (w :: ws) sid
      = (if w.status = "pending" ∧ w.shop = sid then w.amount else 0) + pendingSum ws sid := by
  by_cases h : w.status = "pending" ∧ w.shop = sid
  · simp [pendingSum, List.filter_cons, h]
  · simp [pendingSum, List.filter_cons, h]

theorem pendingSum_append (ws : List WithdrawalDoc) (wd : WithdrawalDoc) (sid : Nat) :
    pendingSum (ws ++ [wd]) sid
      = pendingSum ws sid + (if wd.status = "pending" ∧ wd.shop = sid then wd.amount else 0) := by
  induction ws with
  | nil =>
    simp only [List.nil_append, pendingSum_cons, pendingSum_nil]
    ring
  | cons a rest ih =>
    simp only [List.cons_append, pendingSum_cons, ih]
    ring

theorem pendingSum_nonneg {ws : List WithdrawalDoc}
    (h : ∀ w ∈ ws, w.status = "pending" → 0 < w.amount) (sid : Nat) :
    0 ≤ pendingSum ws sid := by
  induction ws with
  | nil => simp [pendingSum_nil]
  | cons a rest ih =>
    rw [pendingSum_cons]
    have hr := ih (fun w hw => h w (List.mem_cons_of_mem _ hw))
    by_cases ha : a.status = "pending" ∧ a.shop = sid
    · have hpos := h a (by simp) ha.1
      rw [if_pos ha]
      linarith
    · rw [if_neg ha]
      simpa using hr

theorem pendingSum_saveWithdrawal {ws : List WithdrawalDoc} {w : WithdrawalDoc} {i : Nat}
    (w' : WithdrawalDoc) (hfind : findWithdrawalById ws i = some w)
    (hpend : w.status = "pending") (hid : w'.id = w.id)
    (hnp : w'.status ≠ "pending") (sid : Nat) :
    pendingSum (saveWithdrawal ws w') sid
      = pendingSum ws sid - (if w.shop = sid then w.amount else 0) := by
  induction ws with
  | nil => simp [findWithdrawalById] at hfind
  | cons a rest ih =>
    by_cases ha : a.id = i
    · have hw : w = a := by
        have hcopy := hfind
        simp only [findWithdrawalById, List.find?] at hcopy
        rw [decide_eq_true ha] at hcopy
        exact (Option.some_inj.mp hcopy).symm
      have hrep : a.id = w'.id := by rw [hid, hw, ha]
      simp only [saveWithdrawal, if_pos hrep, pendingSum_cons]
      rw [if_neg (by simp [hnp])]
      subst hw
      by_cases hs : w.shop = sid
      · rw [if_pos ⟨hpend, hs⟩, if_pos hs]
        ring
      · rw [if_neg (by simp [hs]), if_neg hs]
        ring
    · have hwid : w.id = i := by
        have := List.find?_some (by exact hfind)
        simpa using this
      have hfind2 : findWithdrawalById rest i = some w := by
        have hcopy := hfind
        simp only [findWithdrawalById, List.find?] at hcopy
        rw [decide_eq_false ha] at hcopy
        exact hcopy
      have hrep : ¬ a.id = w'.id := by
        rw [hid, hwid]
        exact ha
      simp only [saveWithdrawal, if_neg hrep, pendingSum_cons, ih hfind2]
      ring

theorem shop_mem_of_findByOwner {shops : List Shop} {u : Nat} {shop : Shop}
    (h : findShopByOwner shops u = some shop) : shop ∈ shops :=
  List.mem_of_find?_eq_some h

theorem shop_mem_of_findById {shops : List Shop} {sid : Nat} {shop : Shop}
    (h : findShopById shops sid = some shop) : shop ∈ shops :=
  List.mem_of_find?_eq_some h

theorem shop_id_of_findById {shops : List Shop} {sid : Nat} {shop : Shop}
    (h : findShopById shops sid = some shop) : shop.id = sid := by
  have h2 : shops.find? (fun s => decide (s.id = sid)) = some shop := h
  have := List.find?_some h2
  simpa using this

theorem wd_mem_of_findById {ws : List WithdrawalDoc} {i : Nat} {w : WithdrawalDoc}
    (h : findWithdrawalById ws i = some w) : w ∈ ws :=
  List.mem_of_find?_eq_some h

theorem walletInv_requestWithdrawal (db : DB) (u : Nat) (amt : Int)
    (pd : Option PaymentDetails) (i : Nat) (hinv : WalletInv db) :
    WalletInv (requestWithdrawal db u amt pd i).2 := by
  obtain ⟨hnd, hcur, hlock, hamt⟩ := hinv
  by_cases h0 : amt ≤ 0
  · simp only [requestWithdrawal, if_pos h0]
    exact ⟨hnd, hcur, hlock, hamt⟩
  rcases pd with _ | p
  · simp only [requestWithdrawal, if_neg h0]
    exact ⟨hnd, hcur, hlock, hamt⟩
  by_cases hp : p.type = none ∨ p.details = none
  · simp only [requestWithdrawal, if_neg h0, if_pos hp]
    exact ⟨hnd, hcur, hlock, hamt⟩
  rcases hfind : findShopByOwner db.shops u with _ | shop
  · simp only [requestWithdrawal, if_neg h0, if_neg hp, hfind]
    exact ⟨hnd, hcur, hlock, hamt⟩
  by_cases hlt : (shop.wallet.getD ⟨0, 0⟩).currentBalance < amt
  · simp only [requestWithdrawal, if_neg h0, if_neg hp, hfind, if_pos hlt]
    exact ⟨hnd, hcur, hlock, hamt⟩
  simp only [requestWithdrawal, if_neg h0, if_neg hp, hfind, if_neg hlt]
  have hmem : shop ∈ db.shops := shop_mem_of_findByOwner hfind
  refine ⟨?_, ?_, ?_, ?_⟩
  · dsimp only
    rw [saveShop_map_id]
    exact hnd
  · intro t ht
    dsimp only at ht
    rcases mem_saveShop_of_nodup hnd hmem ht rfl with rfl | ⟨htl, _⟩
    · simpa [walletOf] using sub_nonneg.mpr (not_lt.mp hlt)
    · exact hcur t htl
  · intro t ht
    dsimp only at ht ⊢
    rcases mem_saveShop_of_nodup hnd hmem ht rfl with rfl | ⟨htl, hne⟩
    · have hbase := hlock shop hmem
      simp only [walletOf] at hbase ⊢
      simp only [pendingSum_append]
      rw [hbase]
      simp
    · have hbase := hlock t htl
      simp only [walletOf] at hbase ⊢
      rw [pendingSum_append, hbase, if_neg]
      · ring
      · intro hcontra
        exact hne (by simpa using hcontra.2.symm)
  · intro w hw
    dsimp only at hw
    rcases List.mem_append.mp hw with hw1 | hw2
    · exact hamt w hw1
    · intro _
      have hweq : w = ⟨i, shop.id, u, amt, p, "pending", none, none, none⟩ := by
        simpa using hw2
      rw [hweq]
      exact lt_of_not_le h0

theorem walletInv_updateWithdrawalStatus (db : DB) (adm i now : Nat) (st : String)
    (note : Option String) (hinv : WalletInv db) :
    WalletInv (updateWithdrawalStatus db adm i st note now).2 := by
  obtain ⟨hnd, hcur, hlock, hamt⟩ := hinv
  by_cases hst : st = "approved" ∨ st = "rejected"
  case neg =>
    simp only [updateWithdrawalStatus, if_pos hst]
    exact ⟨hnd, hcur, hlock, hamt⟩
  rcases hfw : findWithdrawalById db.withdrawals i with _ | w
  · simp only [updateWithdrawalStatus, if_neg (not_not_intro hst), hfw]
    exact ⟨hnd, hcur, hlock, hamt⟩
  by_cases hpend : w.status ≠ "pending"
  · simp only [updateWithdrawalStatus, if_neg (not_not_intro hst), hfw, if_pos hpend]
    exact ⟨hnd, hcur, hlock, hamt⟩
  rcases hfs : findShopById db.shops w.shop with _ | shop
  · simp only [updateWithdrawalStatus, if_neg (not_not_intro hst), hfw, if_neg hpend, hfs]
    exact ⟨hnd, hcur, hlock, hamt⟩
  push_neg at hpend
  have hmem : shop ∈ db.shops := shop_mem_of_findById hfs
  have hsid : shop.id = w.shop := shop_id_of_findById hfs
  have hwmem : w ∈ db.withdrawals := wd_mem_of_findById hfw
  have hwpos : 0 < w.amount := hamt w hwmem hpend
  by_cases happ : st = "approved"
  · simp only [updateWithdrawalStatus, if_neg (not_not_intro hst), hfw,
      if_neg (not_not_intro hpend), hfs, if_pos happ]
    have hps := pendingSum_saveWithdrawal
      (⟨w.id, w.shop, w.user, w.amount, w.paymentDetails, "approved",
        note, some adm, some now⟩ : WithdrawalDoc) hfw hpend rfl (by simp)
    refine ⟨?_, ?_, ?_, ?_⟩
    · dsimp only
      rw [saveShop_map_id]
      exact hnd
    · intro t ht
      dsimp only at ht
      rcases mem_saveShop_of_nodup hnd hmem ht rfl with rfl | ⟨htl, _⟩
      · simpa [walletOf] using hcur shop hmem
      · exact hcur t htl
    · intro t ht
      dsimp only at ht ⊢
      rcases mem_saveShop_of_nodup hnd hmem ht rfl with rfl | ⟨htl, hne⟩
      · have hbase := hlock shop hmem
        simp only [walletOf, Option.getD_some] at hbase ⊢
        rw [hps, hbase, if_pos hsid.symm]
      · have hbase := hlock t htl
        simp only [walletOf, Option.getD_some] at hbase ⊢
        rw [hps, hbase, if_neg]
        · ring
        · rw [← hsid]
          exact fun hc => hne hc.symm
    · intro x hx
      dsimp only at hx
      rcases mem_saveWithdrawal hx with rfl | hxo
      · intro hcontra
        simp at hcontra
      · exact hamt x hxo
  · have hrej : st = "rejected" := hst.resolve_left happ
    simp only [updateWithdrawalStatus, if_neg (not_not_intro hst), hfw,
      if_neg (not_not_intro hpend), hfs, if_neg happ]
    have hps := pendingSum_saveWithdrawal
      (⟨w.id, w.shop, w.user, w.amount, w.paymentDetails, "rejected",
        note, some adm, some now⟩ : WithdrawalDoc) hfw hpend rfl (by simp)
    refine ⟨?_, ?_, ?_, ?_⟩
    · dsimp only
      rw [saveShop_map_id]
      exact hnd
    · intro t ht
      dsimp only at ht
      rcases mem_saveShop_of_nodup hnd hmem ht rfl with rfl | ⟨htl, _⟩
      · have h1 := hcur shop hmem
        simp only [walletOf, Option.getD_some] at h1 ⊢
        linarith
      · exact hcur t htl
    · intro t ht
      dsimp only at ht ⊢
      rcases mem_saveShop_of_nodup hnd hmem ht rfl with rfl | ⟨htl, hne⟩
      · have hbase := hlock shop hmem
        simp only [walletOf, Option.getD_some] at hbase ⊢
        rw [hps, hbase, if_pos hsid.symm]
      · have hbase := hlock t htl
        simp only [walletOf, Option.getD_some] at hbase ⊢
        rw [hps, hbase, if_neg]
        · ring
        · rw [← hsid]
          exact fun hc => hne hc.symm
    · intro x hx
      dsimp only at hx
      rcases mem_saveWithdrawal hx with rfl | hxo
      · intro hcontra
        simp at hcontra
      · exact hamt x hxo

theorem walletInv_applyWalletOp (u adm : Nat) (db : DB) (op : WalletOp)
    (hinv : WalletInv db) (hcred : ∀ sid r, op = WalletOp.credit sid r → 0 ≤ r) :
    WalletInv (applyWalletOp u adm db op) := by
  obtain ⟨hnd, hcur, hlock, hamt⟩ := hinv
  cases op with
  | credit sid r =>
    have hr : 0 ≤ r := hcred sid r rfl
    rcases hfs : findShopById db.shops sid with _ | shop
    · simp only [applyWalletOp, hfs]
      exact ⟨hnd, hcur, hlock, hamt⟩
    simp only [applyWalletOp, hfs]
    have hmem : shop ∈ db.shops := shop_mem_of_findById hfs
    refine ⟨?_, ?_, ?_, hamt⟩
    · dsimp only
      rw [saveShop_map_id]
      exact hnd
    · intro t ht
      dsimp only at ht
      rcases mem_saveShop_of_nodup hnd hmem ht rfl with rfl | ⟨htl, _⟩
      · have h1 := hcur shop hmem
        simp only [creditShopWallet, walletOf, Option.getD_some] at h1 ⊢
        linarith
      · exact hcur t htl
    · intro t ht
      dsimp only at ht ⊢
      rcases mem_saveShop_of_nodup hnd hmem ht rfl with rfl | ⟨htl, hne⟩
      · have hbase := hlock shop hmem
        simp only [creditShopWallet, walletOf, Option.getD_some] at hbase ⊢
        exact hbase
      · exact hlock t htl
  | reserve newId amount =>
    exact walletInv_requestWithdrawal db u amount (some goodPaymentDetails) newId
      ⟨hnd, hcur, hlock, hamt⟩
  | approve reqId =>
    exact walletInv_updateWithdrawalStatus db adm reqId 0 "approved" none
      ⟨hnd, hcur, hlock, hamt⟩
  | reject reqId =>
    exact walletInv_updateWithdrawalStatus db adm reqId 0 "rejected" none
      ⟨hnd, hcur, hlock, hamt⟩

theorem walletInv_runWalletOps (u adm : Nat) (db : DB) (ops : List WalletOp)
    (hinv : WalletInv db) (hcred : ∀ sid r, WalletOp.credit sid r ∈ ops → 0 ≤ r) :
    WalletInv (runWalletOps u adm db ops) := by
  induction ops generalizing db with
  | nil => exact hinv
  | cons op rest ih =>
    have hstep := walletInv_applyWalletOp u adm db op hinv
      (fun sid r hop => hcred sid r (by rw [hop]; exact List.mem_cons_self _ _))
    exact ih (applyWalletOp u adm db op) hstep
      (fun sid r hmem => hcred sid r (List.mem_cons_of_mem _ hmem))

theorem walletInv_initialDB (owner : Nat) : WalletInv (initialDB owner) := by
  refine ⟨by simp [initialDB, initialShop], ?_, ?_, ?_⟩
  · intro s hs
    simp only [initialDB, initialShop, List.mem_singleton] at hs
    simp [hs, walletOf]
  · intro s hs
    simp only [initialDB, initialShop, List.mem_singleton] at hs
    simp [hs, walletOf, pendingSum_nil, initialDB]
  · intro w hw
    simp [initialDB] at hw

/-- C1: the claim says deciding a withdrawal succeeds only for administrators,
and the route comments document the endpoint as admin-only; but the controller
never consults the caller's userType.  Here the shop's own SELLER approves
their own withdrawal: the call succeeds (200) and burns the locked funds. -/
theorem patchWithdrawalStatus_ignores_userType :
    (patchWithdrawalStatus dbC1 ⟨10, "SELLER"⟩ 7 "approved" none 99).1 = ⟨200, true, []⟩ ∧
    (patchWithdrawalStatus dbC1 ⟨10, "SELLER"⟩ 7 "approved" none 99).2.shops
      = [⟨1, 10, some ⟨40000, 0⟩, 0⟩] ∧
    (⟨10, "SELLER"⟩ : AuthUser).userType ≠ "ADMIN" := by decide

/-- C2: for any sequence of wallet operations (delivery credit with positive
revenue, withdrawal reserve, approval burn, rejection release) run against the
single freshly created shop, after every operation (that is, after every
sequence of them that is an initial segment of a longer run) both the available
and the locked balance of every shop are non-negative. -/
theorem runWalletOps_balances_nonneg
    (owner userId adminId : Nat) (ops pre suf : List WalletOp)
    (hops : ops = pre ++ suf)
    (hcred : ∀ sid r, WalletOp.credit sid r ∈ ops → 0 < r) :
    ∀ s ∈ (runWalletOps userId adminId (initialDB owner) pre).shops,
      0 ≤ (walletOf s).currentBalance ∧ 0 ≤ (walletOf s).lockedBalance := by
  have hinv := walletInv_runWalletOps userId adminId (initialDB owner) pre
    (walletInv_initialDB owner)
    (fun sid r hmem =>
      le_of_lt (hcred sid r (by rw [hops]; exact List.mem_append_left _ hmem)))
  obtain ⟨hnd, hcur, hlock, hamt⟩ := hinv
  intro s hs
  refine ⟨hcur s hs, ?_⟩
  rw [hlock s hs]
  exact pendingSum_nonneg hamt s.id

/-- Concrete instance of `runWalletOps_balances_nonneg`: the worked scenario of
the specification (credit 50000, withdraw 10000, approve), stopped after the
reserve, leaves balances 40000 and 10000, both non-negative. -/
theorem runWalletOps_balances_nonneg_witness :
    0 ≤ (walletOf (⟨1, 10, some ⟨40000, 10000⟩, 50000⟩ : Shop)).currentBalance ∧
    0 ≤ (walletOf (⟨1, 10, some ⟨40000, 10000⟩, 50000⟩ : Shop)).lockedBalance :=
  runWalletOps_balances_nonneg 10 10 99
    [WalletOp.credit 1 50000, WalletOp.reserve 7 10000, WalletOp.approve 7]
    [WalletOp.credit 1 50000, WalletOp.reserve 7 10000] [WalletOp.approve 7]
    (by decide)
    (by
      intro sid r hmem
      simp only [List.mem_cons, List.not_mem_nil, or_false] at hmem
      rcases hmem with h | h | h
      · injection h with h1 h2
        subst h2
        norm_num
      · simp at h
      · simp at h)
    ⟨1, 10, some ⟨40000, 10000⟩, 50000⟩ (by decide)

/-- C3: an already-decided withdrawal request (status not `pending`) cannot be
decided again: any further approve or reject returns the already-processed
error and leaves the whole database (wallet and request) unchanged. -/
theorem updateWithdrawalStatus_already_processed
    (db : DB) (adminId i now : Nat) (status : String) (note : Option String)
    (wd : WithdrawalDoc)
    (hfind : findWithdrawalById db.withdrawals i = some wd)
    (hdone : wd.status ≠ "pending")
    (hdec : status = "approved" ∨ status = "rejected") :
    updateWithdrawalStatus db adminId i status note now
      = (⟨400, false, ["Request is already processed"]⟩, db) := by
  unfold updateWithdrawalStatus
  rw [if_neg (not_not_intro hdec), hfind]
  simp only [if_pos hdone]

/-- Concrete instance of `updateWithdrawalStatus_already_processed`. -/
theorem updateWithdrawalStatus_already_processed_witness :
    updateWithdrawalStatus dbC3 5 7 "rejected" none 3
      = (⟨400, false, ["Request is already processed"]⟩, dbC3) :=
  updateWithdrawalStatus_already_processed dbC3 5 7 3 "rejected" none approvedWdC3
    (by decide) (by decide) (by decide)

/-- C4: withdrawal request by the shop owner with positive amount: with
insufficient available balance the call fails with the insufficient-funds
error and changes nothing; otherwise it moves the amount from available to
locked and appends exactly one pending request row carrying that amount. -/
theorem requestWithdrawal_reserve_spec
    (sid own m i : Nat) (c l : Int) (ws : List WithdrawalDoc) (os : List Order)
    (ps : List Product) (a : Int) (pd : PaymentDetails)
    (hpos : 0 < a) (htype : pd.type ≠ none) (hdet : pd.details ≠ none) :
    (c < a →
      requestWithdrawal ⟨[⟨sid, own, some ⟨c, l⟩, m⟩], ws, os, ps⟩ own a (some pd) i
        = (⟨400, false, ["Insufficient funds"]⟩, ⟨[⟨sid, own, some ⟨c, l⟩, m⟩], ws, os, ps⟩)) ∧
    (a ≤ c →
      requestWithdrawal ⟨[⟨sid, own, some ⟨c, l⟩, m⟩], ws, os, ps⟩ own a (some pd) i
        = (⟨201, true, []⟩,
            ⟨[⟨sid, own, some ⟨c - a, l + a⟩, m⟩],
             ws ++ [⟨i, sid, own, a, pd, "pending", none, none, none⟩], os, ps⟩)) := by
  constructor
  · intro hlt
    simp [requestWithdrawal, findShopByOwner, List.find?, htype, hdet, not_le.mpr hpos, hlt]
  · intro hle
    simp [requestWithdrawal, findShopByOwner, List.find?, saveShop, htype, hdet,
      not_le.mpr hpos, not_lt.mpr hle]

/-- Concrete instance of `requestWithdrawal_reserve_spec`: with 30 available,
a request for 40 fails with insufficient funds and a request for 30 succeeds. -/
theorem requestWithdrawal_reserve_spec_witness :
    (requestWithdrawal ⟨[⟨1, 10, some ⟨30, 0⟩, 0⟩], [], [], []⟩ 10 40 (some goodPaymentDetails) 2
        = (⟨400, false, ["Insufficient funds"]⟩, ⟨[⟨1, 10, some ⟨30, 0⟩, 0⟩], [], [], []⟩)) ∧
    (requestWithdrawal ⟨[⟨1, 10, some ⟨30, 0⟩, 0⟩], [], [], []⟩ 10 30 (some goodPaymentDetails) 2
        = (⟨201, true, []⟩,
            ⟨[⟨1, 10, some ⟨0, 30⟩, 0⟩],
             [⟨2, 1, 10, 30, goodPaymentDetails, "pending", none, none, none⟩], [], []⟩)) :=
  ⟨(requestWithdrawal_reserve_spec 1 10 0 2 30 0 [] [] [] 40 goodPaymentDetails
      (by decide) (by decide) (by decide)).1 (by decide),
   by
    have h := (requestWithdrawal_reserve_spec 1 10 0 2 30 0 [] [] [] 30 goodPaymentDetails
      (by decide) (by decide) (by decide)).2 (by decide)
    simpa using h⟩

/-- C5: any requested order-status transition outside the ORDER_STATUS_FLOW
graph fails and leaves the database unchanged; and the shipped-to-delivered
transition credits the shop wallet with the order's subtotal, while a second
delivered request fails (delivered is terminal) and changes nothing, so the
credit is applied exactly once. -/
theorem updateOrderStatus_flow_and_single_credit :
    (∀ (db : DB) (user : AuthUser) (oid : Nat) (target : String) (o : Order),
      findOrderById db.orders oid = some o →
      isValidStatusTransition o.status target = false →
      (updateOrderStatus db user oid target).1.success = false ∧
        (updateOrderStatus db user oid target).2 = db) ∧
    (∀ (c l sub : Int), sub ≠ 0 →
      (updateOrderStatus
          ⟨[⟨1, 10, some ⟨c, l⟩, 0⟩], [],
           [⟨3, 1, 10, 20, "shipped", "completed", sub, sub, [], [], none, "completed",
             none, none, none, none⟩], []⟩
          ⟨10, "SELLER"⟩ 3 "delivered").1 = ⟨200, true, []⟩ ∧
      (updateOrderStatus
          ⟨[⟨1, 10, some ⟨c, l⟩, 0⟩], [],
           [⟨3, 1, 10, 20, "shipped", "completed", sub, sub, [], [], none, "completed",
             none, none, none, none⟩], []⟩
          ⟨10, "SELLER"⟩ 3 "delivered").2.shops = [⟨1, 10, some ⟨c + sub, l⟩, sub⟩] ∧
      (updateOrderStatus
          (updateOrderStatus
            ⟨[⟨1, 10, some ⟨c, l⟩, 0⟩], [],
             [⟨3, 1, 10, 20, "shipped", "completed", sub, sub, [], [], none, "completed",
               none, none, none, none⟩], []⟩
            ⟨10, "SELLER"⟩ 3 "delivered").2
          ⟨10, "SELLER"⟩ 3 "delivered")
        = (⟨400, false, ["Cannot change status from delivered to delivered"]⟩,
           (updateOrderStatus
             ⟨[⟨1, 10, some ⟨c, l⟩, 0⟩], [],
              [⟨3, 1, 10, 20, "shipped", "completed", sub, sub, [], [], none, "completed",
                none, none, none, none⟩], []⟩
             ⟨10, "SELLER"⟩ 3 "delivered").2)) := by
  constructor
  · intro db user oid target o hfind htrans
    by_cases hv : target ∈ validStatuses
    · by_cases hauth : o.shopOwner = user.id ∨ user.userType = "ADMIN"
      · simp [updateOrderStatus, hfind, hv, hauth, htrans]
      · simp [updateOrderStatus, hfind, hv, hauth]
    · simp [updateOrderStatus, hv]
  · intro c l sub hsub
    have h1 : (updateOrderStatus
          ⟨[⟨1, 10, some ⟨c, l⟩, 0⟩], [],
           [⟨3, 1, 10, 20, "shipped", "completed", sub, sub, [], [], none, "completed",
             none, none, none, none⟩], []⟩
          ⟨10, "SELLER"⟩ 3 "delivered")
        = (⟨200, true, []⟩,
           ⟨[⟨1, 10, some ⟨c + sub, l⟩, sub⟩], [],
            [⟨3, 1, 10, 20, "delivered", "completed", sub, sub, [], [("shipped", 10)], none,
              "completed", none, none, none, none⟩], []⟩) := by
      simp [updateOrderStatus, findOrderById, findShopById, List.find?, validStatuses,
        isValidStatusTransition, ORDER_STATUS_FLOW, creditShopWallet, saveShop, saveOrder,
        hsub]
    refine ⟨by rw [h1], by rw [h1], ?_⟩
    rw [h1]
    simp [updateOrderStatus, findOrderById, List.find?, validStatuses,
      isValidStatusTransition, ORDER_STATUS_FLOW]

/-- Concrete instance of `updateOrderStatus_flow_and_single_credit`:
pending-to-shipped is rejected without a state change, and a delivered order
credits the shop with its subtotal of 500. -/
theorem updateOrderStatus_flow_and_single_credit_witness :
    (updateOrderStatus dbC5 ⟨10, "SELLER"⟩ 3 "shipped").2 = dbC5 ∧
    (updateOrderStatus
        ⟨[⟨1, 10, some ⟨0, 0⟩, 0⟩], [],
         [⟨3, 1, 10, 20, "shipped", "completed", 500, 500, [], [], none, "completed",
           none, none, none, none⟩], []⟩
        ⟨10, "SELLER"⟩ 3 "delivered").2.shops = [⟨1, 10, some ⟨500, 0⟩, 500⟩] :=
  ⟨(updateOrderStatus_flow_and_single_credit.1 dbC5 ⟨10, "SELLER"⟩ 3 "shipped" orderC5
      (by decide) (by decide)).2,
   by simpa using (updateOrderStatus_flow_and_single_credit.2 0 0 500 (by decide)).2.1⟩

/-- C6 counterexample: starting from {available 5, locked 0}, reserve(5)
followed by burn(5) (approval) ends at {available 0, locked 0}: the available
balance did change (0 is not the original 5) and the locked balance did not
decrease by 5 relative to the starting state, refuting the claimed
reserve-then-burn deltas. -/
theorem wallet_reserve_burn_counterexample :
    ((updateWithdrawalStatus
        (requestWithdrawal dbC6 10 5 (some goodPaymentDetails) 2).2
        99 2 "approved" none 0).2.shops.map (fun s => s.wallet)) = [some ⟨0, 0⟩] ∧
    ((0 : Int) ≠ 5 ∧ ((0 : Int) ≠ 0 - 5)) := by decide

/-- C6 amended: reserve is an internal transfer (total conserved); burn on
approval leaves the available balance at its post-reserve value and removes the
amount from locked, so relative to the pre-reserve state the available balance
drops by the amount, locked is back to its old value, and the total drops by
the amount; rejection restores the pre-reserve wallet exactly; and the delivery
credit adds its amount to the available balance only. -/
theorem wallet_conservation_algebra
    (sid own adm i now : Nat) (m c l a : Int) (note : Option String)
    (hpos : 0 < a) (hle : a ≤ c) :
    ((requestWithdrawal ⟨[⟨sid, own, some ⟨c, l⟩, m⟩], [], [], []⟩ own a
        (some goodPaymentDetails) i).2.shops
      = [⟨sid, own, some ⟨c - a, l + a⟩, m⟩]) ∧
    ((c - a) + (l + a) = c + l) ∧
    ((updateWithdrawalStatus
        (requestWithdrawal ⟨[⟨sid, own, some ⟨c, l⟩, m⟩], [], [], []⟩ own a
          (some goodPaymentDetails) i).2 adm i "approved" note now).2.shops
      = [⟨sid, own, some ⟨c - a, l⟩, m⟩]) ∧
    ((c - a) + l = (c + l) - a) ∧
    ((updateWithdrawalStatus
        (requestWithdrawal ⟨[⟨sid, own, some ⟨c, l⟩, m⟩], [], [], []⟩ own a
          (some goodPaymentDetails) i).2 adm i "rejected" note now).2.shops
      = [⟨sid, own, some ⟨c, l⟩, m⟩]) ∧
    (∀ r : Int, walletOf (creditShopWallet ⟨sid, own, some ⟨c, l⟩, m⟩ r) = ⟨c + r, l⟩) := by
  have h1 : requestWithdrawal ⟨[⟨sid, own, some ⟨c, l⟩, m⟩], [], [], []⟩ own a
      (some goodPaymentDetails) i
      = (⟨201, true, []⟩,
         ⟨[⟨sid, own, some ⟨c - a, l + a⟩, m⟩],
          [⟨i, sid, own, a, goodPaymentDetails, "pending", none, none, none⟩], [], []⟩) := by
    simp [requestWithdrawal, findShopByOwner, List.find?, goodPaymentDetails, saveShop,
      not_le.mpr hpos, not_lt.mpr hle]
  refine ⟨by rw [h1], by ring, ?_, by ring, ?_, ?_⟩
  · rw [h1]
    simp [updateWithdrawalStatus, findWithdrawalById, findShopById, List.find?,
      saveShop, saveWithdrawal]
  · rw [h1]
    simp [updateWithdrawalStatus, findWithdrawalById, findShopById, List.find?,
      saveShop, saveWithdrawal]
  · intro r
    simp [creditShopWallet, walletOf]

/-- Concrete instance of `wallet_conservation_algebra`, the worked example of
the specification: 50000 available, withdraw 10000, then approve or reject. -/
theorem wallet_conservation_algebra_witness :
    ((updateWithdrawalStatus
        (requestWithdrawal ⟨[⟨1, 10, some ⟨50000, 0⟩, 0⟩], [], [], []⟩ 10 10000
          (some goodPaymentDetails) 2).2 99 2 "approved" none 7).2.shops
      = [⟨1, 10, some ⟨40000, 0⟩, 0⟩]) ∧
    ((updateWithdrawalStatus
        (requestWithdrawal ⟨[⟨1, 10, some ⟨50000, 0⟩, 0⟩], [], [], []⟩ 10 10000
          (some goodPaymentDetails) 2).2 99 2 "rejected" none 7).2.shops
      = [⟨1, 10, some ⟨50000, 0⟩, 0⟩]) :=
  ⟨by
    have h := (wallet_conservation_algebra 1 10 99 2 7 0 50000 0 10000 none
      (by decide) (by decide)).2.2.1
    simpa using h,
   by
    have h := (wallet_conservation_algebra 1 10 99 2 7 0 50000 0 10000 none
      (by decide) (by decide)).2.2.2.2.1
    simpa using h⟩

/-- C7: the verifying webhook handler is an accepted no-op both when the
transaction id matches no order and when the (verified-completed) callback hits
an order whose payment is already completed: a 200 response, database
untouched. -/
theorem handleZenopayCallback_accepted_noop
    (db : DB) (apiKey : Option String) (envKey tid : String)
    (ref verified : Option String) (now : Nat)
    (hkey : apiKeyMismatch apiKey envKey = false) :
    (findOrderByTransactionId db.orders tid = none →
      handleZenopayCallback db apiKey envKey (some tid) ref verified now
        = (⟨200, "Order not found"⟩, db)) ∧
    (∀ o, findOrderByTransactionId db.orders tid = some o → o.paymentStatus = "completed" →
      handleZenopayCallback db apiKey envKey (some tid) ref (some "COMPLETED") now
        = (⟨200, "Already processed"⟩, db)) := by
  constructor
  · intro hnone
    simp [handleZenopayCallback, hkey, hnone]
  · intro o hfind hdone
    simp [handleZenopayCallback, hkey, hfind, hdone]

/-- Concrete instance of `handleZenopayCallback_accepted_noop`: an unknown
transaction id and a duplicate completed callback are both accepted no-ops. -/
theorem handleZenopayCallback_accepted_noop_witness :
    (handleZenopayCallback dbC7 none "k" (some "missing") none (some "COMPLETED") 9
      = (⟨200, "Order not found"⟩, dbC7)) ∧
    (handleZenopayCallback dbC7 none "k" (some "tx1") none (some "COMPLETED") 9
      = (⟨200, "Already processed"⟩, dbC7)) :=
  ⟨(handleZenopayCallback_accepted_noop dbC7 none "k" "missing" none (some "COMPLETED") 9
      (by decide)).1 (by decide),
   (handleZenopayCallback_accepted_noop dbC7 none "k" "tx1" none (some "COMPLETED") 9
      (by decide)).2 orderC7 (by decide) (by decide)⟩

/-- C8 counterexample: the unrecognized status "Bogus" is persisted lowercased
as "bogus", not verbatim, refuting the stored-verbatim part of the claim (the
fulfillment status is indeed left unchanged). -/
theorem handleZenopayCallbackV2_not_verbatim :
    (handleZenopayCallbackV2 dbC8 (some "tx1") none (some "Bogus") none 11).2.orders.map
        (fun o => o.paymentStatus) = ["bogus"] ∧
    (handleZenopayCallbackV2 dbC8 (some "tx1") none (some "Bogus") none 11).2.orders.map
        (fun o => o.status) = ["pending_payment"] ∧
    ("bogus" : String) ≠ "Bogus" := by decide

/-- C8 amended: on an existing order, a completed-class status moves the order
to fulfillment `pending` with payment `completed`; a failed-class status moves
it to `cancelled` with payment `failed`; an unrecognized status is stored
lowercased (`unknown` when absent or empty) and leaves the fulfillment status
unchanged. -/
theorem handleZenopayCallbackV2_status_mapping
    (db : DB) (tid : String) (statusField payment_status ref : Option String) (now : Nat)
    (o : Order) (hfind : findOrderByTransactionId db.orders tid = some o) :
    ((handleZenopayCallbackV2 db (some tid) statusField payment_status ref now).2.orders
        = saveOrder db.orders (zenopayMappedOrder o statusField payment_status ref now)) ∧
    ((jsOrString payment_status statusField).map toUpperCase = some "COMPLETED" ∨
     (jsOrString payment_status statusField).map toUpperCase = some "SUCCESS" ∨
     (jsOrString payment_status statusField).map toUpperCase = some "SUCCESSFUL" →
      (zenopayMappedOrder o statusField payment_status ref now).status = "pending" ∧
      (zenopayMappedOrder o statusField payment_status ref now).paymentStatus = "completed") ∧
    ((jsOrString payment_status statusField).map toUpperCase = some "FAILED" ∨
     (jsOrString payment_status statusField).map toUpperCase = some "FAILURE" →
      (zenopayMappedOrder o statusField payment_status ref now).status = "cancelled" ∧
      (zenopayMappedOrder o statusField payment_status ref now).paymentStatus = "failed") ∧
    ((∀ s ∈ recognizedStatuses,
        (jsOrString payment_status statusField).map toUpperCase ≠ some s) →
      (zenopayMappedOrder o statusField payment_status ref now).status = o.status ∧
      (zenopayMappedOrder o statusField payment_status ref now).paymentStatus =
        (if ((jsOrString payment_status statusField).map toLowerCase).getD "" = ""
         then "unknown"
         else ((jsOrString payment_status statusField).map toLowerCase).getD "")) := by
  refine ⟨by simp only [handleZenopayCallbackV2, hfind], ?_, ?_, ?_⟩
  · intro hup
    simp only [zenopayMappedOrder]
    rw [if_pos hup]
    exact ⟨rfl, rfl⟩
  · intro hup
    have hnc : ¬ ((jsOrString payment_status statusField).map toUpperCase = some "COMPLETED" ∨
        (jsOrString payment_status statusField).map toUpperCase = some "SUCCESS" ∨
        (jsOrString payment_status statusField).map toUpperCase = some "SUCCESSFUL") := by
      rcases hup with h | h <;> simp [h]
    simp only [zenopayMappedOrder]
    rw [if_neg hnc, if_pos hup]
    exact ⟨rfl, rfl⟩
  · intro hun
    have h1 : ¬ ((jsOrString payment_status statusField).map toUpperCase = some "COMPLETED" ∨
        (jsOrString payment_status statusField).map toUpperCase = some "SUCCESS" ∨
        (jsOrString payment_status statusField).map toUpperCase = some "SUCCESSFUL") := by
      push_neg
      refine ⟨hun "COMPLETED" ?_, hun "SUCCESS" ?_, hun "SUCCESSFUL" ?_⟩ <;>
        simp [recognizedStatuses]
    have h2 : ¬ ((jsOrString payment_status statusField).map toUpperCase = some "FAILED" ∨
        (jsOrString payment_status statusField).map toUpperCase = some "FAILURE") := by
      push_neg
      refine ⟨hun "FAILED" ?_, hun "FAILURE" ?_⟩ <;> simp [recognizedStatuses]
    have h3 : ¬ ((jsOrString payment_status statusField).map toUpperCase = some "PENDING" ∨
        (jsOrString payment_status statusField).map toUpperCase = some "PROCESSING") := by
      push_neg
      refine ⟨hun "PENDING" ?_, hun "PROCESSING" ?_⟩ <;> simp [recognizedStatuses]
    simp only [zenopayMappedOrder]
    rw [if_neg h1, if_neg h2, if_neg h3]
    exact ⟨rfl, rfl⟩

/-- Concrete instance of `handleZenopayCallbackV2_status_mapping`: a FAILED
callback cancels the order and records the failed payment. -/
theorem handleZenopayCallbackV2_status_mapping_witness :
    (handleZenopayCallbackV2 dbC8 (some "tx1") none (some "FAILED") none 11).2.orders
        = saveOrder dbC8.orders (zenopayMappedOrder orderC8 none (some "FAILED") none 11) ∧
    (zenopayMappedOrder orderC8 none (some "FAILED") none 11).status = "cancelled" ∧
    (zenopayMappedOrder orderC8 none (some "FAILED") none 11).paymentStatus = "failed" :=
  ⟨(handleZenopayCallbackV2_status_mapping dbC8 "tx1" none (some "FAILED") none 11 orderC8
      (by decide)).1,
   (handleZenopayCallbackV2_status_mapping dbC8 "tx1" none (some "FAILED") none 11 orderC8
      (by decide)).2.2.1 (Or.inl (by decide))⟩

/-- C9 counterexample: a bank destination with every variant field absent is NOT
rejected: the request succeeds (201), the wallet is mutated and a pending row
is created, contradicting the claimed InvalidDestination rejection. -/
theorem requestWithdrawal_accepts_empty_bank_details :
    badBankPd.details = some ⟨none, none, none, none, none⟩ ∧
    (requestWithdrawal dbC9 10 50 (some badBankPd) 5).1 = ⟨201, true, []⟩ ∧
    (requestWithdrawal dbC9 10 50 (some badBankPd) 5).2.shops = [⟨1, 10, some ⟨50, 50⟩, 0⟩] ∧
    (requestWithdrawal dbC9 10 50 (some badBankPd) 5).2.withdrawals.map
        (fun w => w.status) = ["pending"] := by decide

/-- C9 amended: the destination validation is only a presence check: the request
is rejected before any mutation exactly when `paymentDetails`, its `type` tag or
its `details` object is absent; individual variant fields are not checked. -/
theorem requestWithdrawal_destination_presence_check
    (db : DB) (userId : Nat) (amount : Int) (pd : Option PaymentDetails) (i : Nat)
    (hpos : 0 < amount)
    (hbad : pd = none ∨ ∃ p, pd = some p ∧ (p.type = none ∨ p.details = none)) :
    requestWithdrawal db userId amount pd i
      = (⟨400, false, ["Invalid payment details"]⟩, db) := by
  unfold requestWithdrawal
  rw [if_neg (not_le.mpr hpos)]
  rcases hbad with h | ⟨p, rfl, hp⟩
  · rw [h]
  · simp only [if_pos hp]

/-- Concrete instance of `requestWithdrawal_destination_presence_check`. -/
theorem requestWithdrawal_destination_presence_check_witness :
    requestWithdrawal dbC9 10 50 (some ⟨none, some ⟨none, none, none, none, none⟩⟩) 5
      = (⟨400, false, ["Invalid payment details"]⟩, dbC9) :=
  requestWithdrawal_destination_presence_check dbC9 10 50
    (some ⟨none, some ⟨none, none, none, none, none⟩⟩) 5 (by decide)
    (Or.inr ⟨_, rfl, Or.inl rfl⟩)

/-- C10: a shop document with no wallet field is treated as a zeroed wallet by
`requestWithdrawal`: any positive-amount request fails with insufficient funds
and the database (shop document and withdrawal collection) is unchanged. -/
theorem requestWithdrawal_missing_wallet
    (sid own i : Nat) (m : Int) (ws : List WithdrawalDoc) (os : List Order)
    (ps : List Product) (amount : Int) (pd : PaymentDetails)
    (hpos : 0 < amount) (htype : pd.type ≠ none) (hdet : pd.details ≠ none) :
    requestWithdrawal ⟨[⟨sid, own, none, m⟩], ws, os, ps⟩ own amount (some pd) i
      = (⟨400, false, ["Insufficient funds"]⟩, ⟨[⟨sid, own, none, m⟩], ws, os, ps⟩) := by
  simp [requestWithdrawal, findShopByOwner, List.find?, htype, hdet, not_le.mpr hpos, hpos]

/-- Concrete instance of `requestWithdrawal_missing_wallet`. -/
theorem requestWithdrawal_missing_wallet_witness :
    requestWithdrawal ⟨[⟨1, 10, none, 0⟩], [], [], []⟩ 10 25 (some goodPaymentDetails) 2
      = (⟨400, false, ["Insufficient funds"]⟩, ⟨[⟨1, 10, none, 0⟩], [], [], []⟩) :=
  requestWithdrawal_missing_wallet 1 10 2 0 [] [] [] 25 goodPaymentDetails
    (by decide) (by decide) (by decide)

end SwahiliApi
